import Mathlib

/-!
Verification of the sidekick-server request-processing pipeline.

Shallow embedding of the Python sources under `sidekick-server/`:
`utils/cache.py`, `utils/rate_limiter.py`, `utils/metrics.py`,
`services/completion.py`, `services/modification.py`,
`services/claude_client.py`, `models/request.py`, `models/response.py`.

Conventions of the embedding:
* wall-clock timestamps (Python `time.time() * 1000` floats) are `Int`
  milliseconds; response-time samples and timeout seconds are `ℚ`;
* a Python `dict[str, V]` is an insertion-ordered association list
  `List (String × V)` with no duplicate keys; overwriting an existing key
  keeps its position, a fresh key is appended (CPython dict semantics);
* Python `round` (half rounds to even) is `pyRound : ℚ → ℤ`;
* the field `prefix` of `CompletionRequest` is rendered `prefixStr`.
-/

/-! ## models/response.py -/

/-- `CompletionResponse` from models/response.py. -/
structure CompletionResponse where
  completion : String := ""
  error : Option String := none
  requestId : Option String := none
deriving DecidableEq

/-- `ModifyResponse` from models/response.py. -/
structure ModifyResponse where
  modified_code : String := ""
  error : Option String := none
  requestId : Option String := none
deriving DecidableEq

/-- `MetricsSnapshot` from models/response.py.  `cacheHitRate` and
`avgResponseTimeMs` are floats in Python; the values actually produced are a
two-decimal rational and an integer, so we give them those types. -/
structure MetricsSnapshot where
  totalRequests : Nat := 0
  cacheHits : Nat := 0
  cacheHitRate : ℚ := 0
  avgResponseTimeMs : ℤ := 0
  requestsByModel : List (String × Nat) := []
  errorCount : Nat := 0
deriving DecidableEq

/-! ## models/request.py -/

/-- `CompletionRequest` from models/request.py (`prefix` renamed
`prefixStr`).  `model` is a string whose valid values are "haiku"/"sonnet". -/
structure CompletionRequest where
  prefixStr : String
  suffix : String := ""
  language : String
  filename : Option String := none
  model : String := "haiku"
  max_tokens : Option Int := none
  multiline : Bool := false
deriving DecidableEq

/-- `ModifyRequest` from models/request.py. -/
structure ModifyRequest where
  code : String
  instruction : String
  language : String
  filename : Option String := none
  model : String := "opus"
  prefixStr : String := ""
  suffix : String := ""
deriving DecidableEq

/-! ## Python dict on string keys, as an insertion-ordered association list -/

/-- `d.get(k)` on a Python dict: first (only, when keys are nodup) binding. -/
def dictGet {β : Type} (k : String) : List (String × β) → Option β
  | [] => none
  | kv :: rest => if kv.1 = k then some kv.2 else dictGet k rest

/-- `d[k] = v` on a Python dict: overwrite in place when the key exists,
append otherwise. -/
def dictInsert {β : Type} (l : List (String × β)) (k : String) (v : β) :
    List (String × β) :=
  if k ∈ l.map Prod.fst then
    l.map (fun kv => if kv.1 = k then (k, v) else kv)
  else l ++ [(k, v)]

/-- `del d[k]` on a Python dict (removes the unique binding of `k`). -/
def eraseKey {β : Type} (k : String) (l : List (String × β)) :
    List (String × β) :=
  l.filter (fun kv => kv.1 ≠ k)

/-- Python truthiness of an `Optional[str]`: set and non-empty. -/
def optStrTruthy : Option String → Bool
  | none => false
  | some s => s ≠ ""

/-! ## utils/cache.py -/

/-- `CacheEntry` from utils/cache.py. -/
structure CacheEntry where
  response : CompletionResponse
  timestamp : Int
deriving DecidableEq

/-- `CompletionCache` from utils/cache.py: dict of entries plus the
configuration captured at construction.  `max_size` is a Python int. -/
structure CompletionCache where
  entries : List (String × CacheEntry) := []
  ttl_ms : Int := 30000
  max_size : Int := 100
deriving DecidableEq

/-- Python `s[-n:]`: the last `n` characters. -/
def lastChars (n : Nat) (s : String) : String :=
  String.mk (s.data.drop (s.data.length - n))

/-- Python `s[:n]`: the first `n` characters. -/
def firstChars (n : Nat) (s : String) : String :=
  String.mk (s.data.take n)

/-- `CompletionCache._hash_key` from utils/cache.py. -/
def CompletionCache.hash_key (req : CompletionRequest) : String :=
  let prefix_tail :=
    if req.prefixStr.length > 500 then lastChars 500 req.prefixStr
    else req.prefixStr
  let suffix_head := firstChars 200 req.suffix
  let model := if req.model = "" then "haiku" else req.model
  req.language ++ ":" ++ model ++ ":" ++ prefix_tail ++ ":" ++ suffix_head

/-- `CompletionCache.get` from utils/cache.py.  Returns the looked-up
response together with the cache after the lazy-expiration side effect. -/
def CompletionCache.get (c : CompletionCache) (req : CompletionRequest)
    (now_ms : Int) : Option CompletionResponse × CompletionCache :=
  let key := CompletionCache.hash_key req
  match dictGet key c.entries with
  | none => (none, c)
  | some entry =>
    if now_ms - entry.timestamp > c.ttl_ms then
      (none, { c with entries := eraseKey key c.entries })
    else
      (some entry.response, c)

/-- Inner loop of `CompletionCache._find_oldest_entry`: carry the best
(key, timestamp) seen so far, replacing it on strictly smaller timestamps. -/
def findOldestFrom (best : String × Int) :
    List (String × CacheEntry) → String × Int
  | [] => best
  | kv :: rest =>
    if kv.2.timestamp < best.2 then findOldestFrom (kv.1, kv.2.timestamp) rest
    else findOldestFrom best rest

/-- `CompletionCache._find_oldest_entry` from utils/cache.py.  The Python
loop starts from `oldest_time = inf`, so the first entry always becomes the
initial candidate. -/
def CompletionCache.find_oldest_entry :
    List (String × CacheEntry) → Option String
  | [] => none
  | kv :: rest => some (findOldestFrom (kv.1, kv.2.timestamp) rest).1

/-- The eviction step of `CompletionCache.set` (utils/cache.py lines 83-87):
when at or above capacity, delete the oldest entry if one exists. -/
def CompletionCache.evictIfFull (c : CompletionCache) : CompletionCache :=
  if (c.entries.length : Int) ≥ c.max_size then
    match CompletionCache.find_oldest_entry c.entries with
    | some oldest => { c with entries := eraseKey oldest c.entries }
    | none => c
  else c

/-- `CompletionCache.set` from utils/cache.py.  `if not response.completion
or response.error` uses Python truthiness on the optional error string. -/
def CompletionCache.set (c : CompletionCache) (req : CompletionRequest)
    (response : CompletionResponse) (now_ms : Int) : CompletionCache :=
  if response.completion = "" ∨ optStrTruthy response.error then c
  else
    let c1 := CompletionCache.evictIfFull c
    { c1 with
      entries := dictInsert c1.entries (CompletionCache.hash_key req)
        ⟨response, now_ms⟩ }

/-- `CompletionCache.clear` from utils/cache.py. -/
def CompletionCache.clear (c : CompletionCache) : CompletionCache :=
  { c with entries := [] }

/-- `CompletionCache.size` from utils/cache.py. -/
def CompletionCache.size (c : CompletionCache) : Nat :=
  c.entries.length

/-- A fresh cache with the given configuration. -/
def CompletionCache.mkEmpty (ttl_ms max_size : Int) : CompletionCache :=
  { entries := [], ttl_ms := ttl_ms, max_size := max_size }

/-- One observable cache operation, with the wall-clock time at which it
runs (`get` and `set` read `time.time()`). -/
inductive CacheOp where
  | get (req : CompletionRequest) (now_ms : Int)
  | set (req : CompletionRequest) (response : CompletionResponse) (now_ms : Int)
  | clear
deriving DecidableEq

/-- Effect of one operation on the cache state. -/
def CompletionCache.execOp (c : CompletionCache) : CacheOp → CompletionCache
  | .get req now_ms => (CompletionCache.get c req now_ms).2
  | .set req response now_ms => CompletionCache.set c req response now_ms
  | .clear => CompletionCache.clear c

/-- Effect of a sequence of operations, first to last. -/
def CompletionCache.execOps (c : CompletionCache) (ops : List CacheOp) :
    CompletionCache :=
  ops.foldl CompletionCache.execOp c

/-! ## utils/rate_limiter.py -/

/-- `RateLimiter` from utils/rate_limiter.py: recorded request timestamps
(milliseconds) plus the configuration captured at construction. -/
structure RateLimiter where
  requests : List Int := []
  window_ms : Int := 60000
  max_requests : Int := 60
deriving DecidableEq

/-- `RateLimiter.is_allowed` from utils/rate_limiter.py: purge timestamps
outside the window, deny (recording nothing) at or above the limit,
otherwise record `now` and allow.  Returns the decision and the new state. -/
def RateLimiter.is_allowed (rl : RateLimiter) (now : Int) :
    Bool × RateLimiter :=
  let reqs := rl.requests.filter (fun t => now - t < rl.window_ms)
  if (reqs.length : Int) ≥ rl.max_requests then
    (false, { rl with requests := reqs })
  else
    (true, { rl with requests := reqs ++ [now] })

/-- `math.ceil(a / b)` for integers, `b > 0` (`/` is floor division). -/
def intCeilDiv (a b : Int) : Int :=
  (a + b - 1) / b

/-- `RateLimiter.get_retry_after_seconds` from utils/rate_limiter.py. -/
def RateLimiter.get_retry_after_seconds (rl : RateLimiter) (now : Int) : Int :=
  match rl.requests with
  | [] => 0
  | oldest :: _ => max 0 (intCeilDiv (rl.window_ms - (now - oldest)) 1000)

/-- `RateLimiter.get_current_count` from utils/rate_limiter.py (purges, then
counts; returns count and new state). -/
def RateLimiter.get_current_count (rl : RateLimiter) (now : Int) :
    Nat × RateLimiter :=
  let reqs := rl.requests.filter (fun t => now - t < rl.window_ms)
  (reqs.length, { rl with requests := reqs })

/-- State after `k` consecutive `is_allowed` calls, all at time `now`. -/
def RateLimiter.callsAt (rl : RateLimiter) (now : Int) : Nat → RateLimiter
  | 0 => rl
  | k + 1 => ((RateLimiter.callsAt rl now k).is_allowed now).2

/-! ## utils/metrics.py -/

/-- `MAX_RESPONSE_TIMES` from utils/metrics.py. -/
def MAX_RESPONSE_TIMES : Nat := 1000

/-- Internal state of `Metrics` from utils/metrics.py. -/
structure MetricsState where
  total_requests : Nat := 0
  cache_hits : Nat := 0
  response_times : List ℚ := []
  requests_by_model : List (String × Nat) := []
  error_count : Nat := 0
deriving DecidableEq

/-- `Metrics.record_request` from utils/metrics.py.  `pop(0)` drops the
oldest (head) sample once the rolling buffer exceeds the maximum. -/
def MetricsState.record_request (m : MetricsState) (model : String)
    (response_time_ms : ℚ) (cache_hit : Bool) (error : Bool) : MetricsState :=
  let ts := m.response_times ++ [response_time_ms]
  { total_requests := m.total_requests + 1
    cache_hits := m.cache_hits + (if cache_hit then 1 else 0)
    error_count := m.error_count + (if error then 1 else 0)
    requests_by_model :=
      dictInsert m.requests_by_model model
        ((dictGet model m.requests_by_model).getD 0 + 1)
    response_times := if ts.length > MAX_RESPONSE_TIMES then ts.tail else ts }

/-- Python 3 `round` to an integer: round half to even. -/
def pyRound (q : ℚ) : ℤ :=
  if q - ⌊q⌋ = 1 / 2 then (if ⌊q⌋ % 2 = 0 then ⌊q⌋ else ⌊q⌋ + 1)
  else round q

/-- `Metrics.get_metrics` from utils/metrics.py. -/
def MetricsState.get_metrics (m : MetricsState) : MetricsSnapshot :=
  let avg : ℤ :=
    if m.response_times = [] then 0
    else pyRound (m.response_times.sum / (m.response_times.length : ℚ))
  let rate : ℚ :=
    if m.total_requests > 0 then
      (pyRound (((m.cache_hits : ℚ) / (m.total_requests : ℚ)) * 100) : ℚ) / 100
    else 0
  { totalRequests := m.total_requests
    cacheHits := m.cache_hits
    cacheHitRate := rate
    avgResponseTimeMs := avg
    requestsByModel := m.requests_by_model
    errorCount := m.error_count }

/-- Arguments of one `record_request` call, for stating buffer evolution. -/
structure RecordInput where
  model : String
  response_time_ms : ℚ
  cache_hit : Bool
  error : Bool
deriving DecidableEq

/-- Apply a sequence of `record_request` calls, first to last. -/
def MetricsState.recordAll (m : MetricsState) (rs : List RecordInput) :
    MetricsState :=
  rs.foldl
    (fun s r => s.record_request r.model r.response_time_ms r.cache_hit r.error)
    m

/-! ## services/completion.py — output sanitizer -/

/-- ASCII word character, the fragment of regex `\w` exercised here. -/
def isWordChar (c : Char) : Bool :=
  c.isAlphanum || c = '_'

/-- Python `str.strip()` whitespace (ASCII fragment). -/
def isPySpace (c : Char) : Bool :=
  c = ' ' || c = '\t' || c = '\n' || c = '\r' || c = '\x0b' || c = '\x0c'

/-- Python `str.strip()` on a character list. -/
def stripChars (l : List Char) : List Char :=
  ((l.dropWhile isPySpace).reverse.dropWhile isPySpace).reverse

/-- First sanitizer substitution, `re.sub(r"^```[\w]*\n?", "", text)`: a
single leading fence marker (three backticks, a greedy run of word
characters, an optional newline) is removed; `^` anchors at the start. -/
def stripFenceStart : List Char → List Char
  | '`' :: '`' :: '`' :: rest =>
    match rest.dropWhile isWordChar with
    | '\n' :: r2 => r2
    | r1 => r1
  | l => l

/-- Second sanitizer substitution, `re.sub(r"\n?```$", "", cleaned)`: `$`
matches at the end of the string or just before a final newline, so the
leftmost (hence only) match removes a trailing `` ``` `` and the newline
immediately before it, keeping a final newline that follows the fence. -/
def stripFenceEnd (l : List Char) : List Char :=
  match l.reverse with
  | '`' :: '`' :: '`' :: '\n' :: rest => rest.reverse
  | '`' :: '`' :: '`' :: rest => rest.reverse
  | '\n' :: '`' :: '`' :: '`' :: '\n' :: rest => ('\n' :: rest).reverse
  | '\n' :: '`' :: '`' :: '`' :: rest => ('\n' :: rest).reverse
  | _ => l

/-- Does `needle` occur at the start of the haystack? -/
def listStartsWith : List Char → List Char → Bool
  | [], _ => true
  | _ :: _, [] => false
  | c :: nd, d :: hs => c = d && listStartsWith nd hs

/-- Does `needle` occur anywhere in the haystack (regex `search` on an
unanchored literal)? -/
def listContainsSub (needle : List Char) : List Char → Bool
  | [] => needle.isEmpty
  | c :: rest => listStartsWith needle (c :: rest) || listContainsSub needle rest

/-- Case-insensitive search: lower both sides (needles are lowercase). -/
def toLowerList (l : List Char) : List Char :=
  l.map Char.toLower

/-- An apostrophe, kept out of string literals. -/
def squote : String :=
  String.mk [Char.ofNat 39]

/-- Pattern 1 source, `^I (need|cannot|can*t|don*t|would|could)` with
apostrophes for the stars. -/
def pat1src : String :=
  "^I (need|cannot|can" ++ squote ++ "t|don" ++ squote ++ "t|would|could)"

/-- Pattern 1 match: anchored, case-insensitive. -/
def pat1match (l : List Char) : Bool :=
  let low := toLowerList l
  listStartsWith "i need".data low || listStartsWith "i cannot".data low ||
  listStartsWith ("i can" ++ squote ++ "t").data low ||
  listStartsWith ("i don" ++ squote ++ "t").data low ||
  listStartsWith "i would".data low || listStartsWith "i could".data low

/-- Pattern 2 match: `^(Could|Would|Can) you`, anchored, case-insensitive. -/
def pat2match (l : List Char) : Bool :=
  let low := toLowerList l
  listStartsWith "could you".data low || listStartsWith "would you".data low ||
  listStartsWith "can you".data low

/-- Pattern 8 match: `without (additional|more)`, case-insensitive search. -/
def pat8match (l : List Char) : Bool :=
  let low := toLowerList l
  listContainsSub "without additional".data low ||
  listContainsSub "without more".data low

/-- `CONVERSATIONAL_PATTERNS` from services/completion.py: the eight
(case-insensitive) patterns in their fixed order, each as its regex source
string paired with its match predicate. -/
def CONVERSATIONAL_PATTERNS : List (String × (List Char → Bool)) :=
  [ (pat1src, pat1match)
  , ("^(Could|Would|Can) you", pat2match)
  , ("more context", fun l => listContainsSub "more context".data (toLowerList l))
  , ("cannot provide", fun l => listContainsSub "cannot provide".data (toLowerList l))
  , ("please provide", fun l => listContainsSub "please provide".data (toLowerList l))
  , ("let me", fun l => listContainsSub "let me".data (toLowerList l))
  , ("however", fun l => listContainsSub "however".data (toLowerList l))
  , ("without (additional|more)", pat8match) ]

/-- The loop over `CONVERSATIONAL_PATTERNS` in `clean_completion`: source
string of the first pattern matching the cleaned text, if any. -/
def firstFilterReason :
    List (String × (List Char → Bool)) → List Char → Option String
  | [], _ => none
  | (src, f) :: ps, l => if f l then some src else firstFilterReason ps l

/-- `clean_completion` from services/completion.py. -/
def clean_completion (text : String) (max_length : Nat) :
    String × Option String :=
  let cleaned := stripChars (stripFenceEnd (stripFenceStart text.data))
  match firstFilterReason CONVERSATIONAL_PATTERNS cleaned with
  | some src => ("", some ("Filtered conversational response: " ++ src))
  | none =>
    if cleaned.length > max_length then
      ("", some ("Filtered response (too long): " ++ toString cleaned.length
        ++ " > " ++ toString max_length))
    else (String.mk cleaned, none)

/-- `clean_modification` from services/modification.py: fence and
whitespace stripping only, no pattern or length filtering. -/
def clean_modification (text : String) : String :=
  String.mk (stripChars (stripFenceEnd (stripFenceStart text.data)))

/-! ## services/claude_client.py -/

/-- `MODEL_TIMEOUTS` from services/claude_client.py (seconds). -/
def MODEL_TIMEOUTS (model : String) : Option ℚ :=
  if model = "haiku" then some 5
  else if model = "sonnet" then some 10
  else if model = "opus" then some 30
  else none

/-- `DEFAULT_TIMEOUT` from services/claude_client.py (seconds). -/
def DEFAULT_TIMEOUT : ℚ := 5

/-- `get_timeout` from services/claude_client.py.  `env` is the parsed
`COMPLETION_TIMEOUT_MS` variable when it is set to a non-empty string
(`if env_timeout:` treats an unset or empty variable alike). -/
def get_timeout (env : Option Int) (model : String) : ℚ :=
  match env with
  | some v => (v : ℚ) / 1000
  | none => (MODEL_TIMEOUTS model).getD DEFAULT_TIMEOUT

/-- The timeout actually used by `get_claude_completion`:
`timeout_override / 1000 if timeout_override else get_timeout(model)`.
Python truthiness makes an override of `0` fall through. -/
def resolvedTimeout (timeout_override : Option Int) (env : Option Int)
    (model : String) : ℚ :=
  match timeout_override with
  | some v => if v ≠ 0 then (v : ℚ) / 1000 else get_timeout env model
  | none => get_timeout env model

/-! ## services/completion.py and services/modification.py — error paths -/

/-- The closed taxonomy of backend failures the pipelines catch: the six
named exception classes plus the generic `except Exception` catch-all. -/
inductive BackendFailure where
  | timedOut
  | cliNotFound
  | cliConnection (msg : String)
  | processFailure (exit_code : Option Int)
  | jsonDecode (msg : String)
  | sdkError (msg : String)
  | other (msg : String)
deriving DecidableEq

/-- The human-readable error message each `except` branch produces (the
strings are identical in services/completion.py and
services/modification.py).  A `ProcessError` with no `exit_code` attribute
falls back to "unknown"; an empty catch-all message falls back to
"Unknown error". -/
def backendFailureMessage : BackendFailure → String
  | .timedOut => "Request timed out"
  | .cliNotFound =>
    "Claude Code CLI not found. Please install it with: npm install -g @anthropic-ai/claude-code"
  | .cliConnection e => "Failed to connect to Claude Code CLI: " ++ e
  | .processFailure ec =>
    "Claude Code CLI process failed (exit code: "
      ++ (match ec with | some c => toString c | none => "unknown") ++ ")"
  | .jsonDecode e => "Failed to parse Claude Code response: " ++ e
  | .sdkError e => "Claude SDK error: " ++ e
  | .other e => if e = "" then "Unknown error" else e

/-- The `except` branches of `get_completion` (services/completion.py lines
168-265): record metrics with `error=True` and return the envelope with
empty completion and the mapped message. -/
def handleCompletionFailure (m : MetricsState) (model : String) (elapsed : ℚ)
    (f : BackendFailure) (request_id : Option String) :
    CompletionResponse × MetricsState :=
  ({ completion := "", error := some (backendFailureMessage f),
     requestId := request_id },
   m.record_request model elapsed false true)

/-- The `except` branches of `get_modification` (services/modification.py
lines 114-211). -/
def handleModificationFailure (m : MetricsState) (model : String)
    (elapsed : ℚ) (f : BackendFailure) (request_id : Option String) :
    ModifyResponse × MetricsState :=
  ({ modified_code := "", error := some (backendFailureMessage f),
     requestId := request_id },
   m.record_request model elapsed false true)

/-- The success continuation of `get_completion` (services/completion.py
lines 138-166): sanitize the backend text; on a filter rejection return an
empty, error-free envelope, record a non-error request and leave the cache
alone; otherwise cache the response and record a non-error request. -/
def completionSuccessPath (cache : CompletionCache) (m : MetricsState)
    (req : CompletionRequest) (completion_text : String)
    (request_id : Option String) (elapsed : ℚ) (now_ms : Int) :
    CompletionResponse × CompletionCache × MetricsState :=
  let max_length := if req.multiline then 1000 else 200
  let model := if req.model = "" then "haiku" else req.model
  match clean_completion completion_text max_length with
  | (_, some _) =>
    ({ completion := "", error := none, requestId := request_id }, cache,
     m.record_request model elapsed false false)
  | (cleaned, none) =>
    let response : CompletionResponse :=
      { completion := cleaned, error := none, requestId := request_id }
    (response, cache.set req response now_ms,
     m.record_request model elapsed false false)

/-- Outcome of one backend attempt (one `query` call): the streamed text,
or one of the raised failures. -/
inductive BackendOutcome where
  | ok (text : String)
  | fail (f : BackendFailure)
deriving DecidableEq

/-- `get_claude_completion` from services/claude_client.py, abstracted over
an attempt-indexed backend oracle: the body performs a single `query` call
under the resolved timeout (attempt 0), re-raises every caught failure
unchanged, and contains no retry loop.  The second component counts the
backend attempts consumed. -/
def get_claude_completion (backend : Nat → BackendOutcome) :
    Except BackendFailure String × Nat :=
  (match backend 0 with
   | .ok t => Except.ok t
   | .fail f => Except.error f, 1)

/-- A backend whose every attempt succeeds with `t`. -/
def constBackendOk (t : String) : Nat → BackendOutcome :=
  fun _ => .ok t

/-- A backend whose every attempt raises `f`. -/
def constBackendFail (f : BackendFailure) : Nat → BackendOutcome :=
  fun _ => .fail f

/-- A backend that succeeds on the first attempt and would fail on any
retry — used to witness that no retry is ever consulted. -/
def backendOkThenFail (t : String) (f : BackendFailure) :
    Nat → BackendOutcome :=
  fun n => if n = 0 then .ok t else .fail f

/-! ## Helper lemmas: the association-list dict -/

lemma dictGet_eq_none_of_not_mem {β : Type} {k : String} {l : List (String × β)}
    (h : k ∉ l.map Prod.fst) : dictGet k l = none := by
  induction l with
  | nil => rfl
  | cons kv rest ih =>
    simp only [List.map_cons, List.mem_cons, not_or] at h
    simp only [dictGet]
    rw [if_neg (fun he => h.1 he.symm)]
    exact ih h.2

lemma dictGet_mem {β : Type} {k : String} {l : List (String × β)} {v : β}
    (h : dictGet k l = some v) : (k, v) ∈ l := by
  induction l with
  | nil => simp [dictGet] at h
  | cons kv rest ih =>
    simp only [dictGet] at h
    by_cases he : kv.1 = k
    · rw [if_pos he] at h
      have h2 : kv.2 = v := by injection h
      have hkv : kv = (k, v) := by cases kv; simp_all
      exact hkv ▸ List.mem_cons_self _ _
    · rw [if_neg he] at h
      exact .tail _ (ih h)

lemma mem_keys_of_dictGet {β : Type} {k : String} {l : List (String × β)} {v : β}
    (h : dictGet k l = some v) : k ∈ l.map Prod.fst := by
  have := dictGet_mem h
  exact List.mem_map.mpr ⟨(k, v), this, rfl⟩

lemma eraseKey_of_not_mem {β : Type} {k : String} {l : List (String × β)}
    (h : k ∉ l.map Prod.fst) : eraseKey k l = l := by
  induction l with
  | nil => rfl
  | cons kv rest ih =>
    simp only [List.map_cons, List.mem_cons, not_or] at h
    simp only [eraseKey, List.filter_cons]
    rw [if_pos (by simpa using fun he => h.1 he.symm)]
    simpa [eraseKey] using ih h.2

lemma length_eraseKey_of_mem {β : Type} {k : String} {l : List (String × β)}
    (hnd : (l.map Prod.fst).Nodup) (h : k ∈ l.map Prod.fst) :
    (eraseKey k l).length + 1 = l.length := by
  induction l with
  | nil => simp at h
  | cons kv rest ih =>
    rw [List.map_cons, List.nodup_cons] at hnd
    rw [List.map_cons, List.mem_cons] at h
    unfold eraseKey
    rw [List.filter_cons]
    by_cases he : kv.1 = k
    · rw [if_neg (by simp [he])]
      have hnot : k ∉ rest.map Prod.fst := he ▸ hnd.1
      have h2 := eraseKey_of_not_mem (l := rest) hnot
      unfold eraseKey at h2
      rw [h2]
      simp
    · rw [if_pos (by simp [he])]
      have hk : k ∈ rest.map Prod.fst := h.resolve_left (fun hh => he hh.symm)
      have h2 := ih hnd.2 hk
      unfold eraseKey at h2
      simp only [List.length_cons]
      omega

lemma dictGet_eraseKey_self {β : Type} (k : String) (l : List (String × β)) :
    dictGet k (eraseKey k l) = none := by
  apply dictGet_eq_none_of_not_mem
  intro hmem
  obtain ⟨kv, hkv, hfst⟩ := List.mem_map.mp hmem
  have := List.of_mem_filter hkv
  simp [hfst] at this

lemma mem_keys_eraseKey_of_ne {β : Type} {k k' : String} {l : List (String × β)}
    (hne : k' ≠ k) (h : k' ∈ l.map Prod.fst) :
    k' ∈ (eraseKey k l).map Prod.fst := by
  obtain ⟨kv, hkv, hfst⟩ := List.mem_map.mp h
  refine List.mem_map.mpr ⟨kv, List.mem_filter.mpr ⟨hkv, ?_⟩, hfst⟩
  simp [hfst, hne]

lemma dictGet_replace_self {β : Type} (k : String) (v : β)
    {l : List (String × β)} (hmem : k ∈ l.map Prod.fst) :
    dictGet k (l.map (fun kv => if kv.1 = k then (k, v) else kv)) = some v := by
  induction l with
  | nil => simp at hmem
  | cons kv rest ih =>
    rw [List.map_cons, List.mem_cons] at hmem
    rw [List.map_cons]
    by_cases he : kv.1 = k
    · rw [if_pos he]
      simp [dictGet]
    · rw [if_neg he]
      have hk : k ∈ rest.map Prod.fst := hmem.resolve_left (fun hh => he hh.symm)
      simp only [dictGet, if_neg he]
      exact ih hk

lemma dictGet_replace_ne {β : Type} {k k' : String} (hne : k' ≠ k) (v : β)
    (l : List (String × β)) :
    dictGet k' (l.map (fun kv => if kv.1 = k then (k, v) else kv)) =
      dictGet k' l := by
  induction l with
  | nil => rfl
  | cons kv rest ih =>
    rw [List.map_cons]
    by_cases he : kv.1 = k
    · rw [if_pos he]
      have h1 : ¬((k, v).1 = k') := fun hh => hne hh.symm
      have h2 : ¬(kv.1 = k') := fun hh => hne (hh ▸ he ▸ rfl : k' = k)
      simp only [dictGet, if_neg h1, if_neg h2]
      exact ih
    · rw [if_neg he]
      by_cases hk2 : kv.1 = k'
      · simp only [dictGet, if_pos hk2]
      · simp only [dictGet, if_neg hk2]
        exact ih

lemma keys_replace {β : Type} (k : String) (v : β) (l : List (String × β)) :
    (l.map (fun kv => if kv.1 = k then (k, v) else kv)).map Prod.fst =
      l.map Prod.fst := by
  rw [List.map_map]
  apply List.map_congr_left
  intro kv _
  by_cases he : kv.1 = k
  · simp [he]
  · simp [he]

lemma dictGet_dictInsert_self {β : Type} (k : String) (v : β)
    (l : List (String × β)) : dictGet k (dictInsert l k v) = some v := by
  unfold dictInsert
  by_cases hmem : k ∈ l.map Prod.fst
  · rw [if_pos hmem]
    exact dictGet_replace_self k v hmem
  · rw [if_neg hmem]
    induction l with
    | nil => simp [dictGet]
    | cons kv rest ih =>
      rw [List.map_cons, List.mem_cons] at hmem
      push_neg at hmem
      have he : ¬(kv.1 = k) := fun hh => hmem.1 hh.symm
      simp only [List.cons_append, dictGet, if_neg he]
      exact ih hmem.2

lemma dictGet_dictInsert_ne {β : Type} {k k' : String} (v : β)
    (l : List (String × β)) (hne : k' ≠ k) :
    dictGet k' (dictInsert l k v) = dictGet k' l := by
  unfold dictInsert
  by_cases hmem : k ∈ l.map Prod.fst
  · rw [if_pos hmem]
    exact dictGet_replace_ne hne v l
  · rw [if_neg hmem]
    induction l with
    | nil =>
      have : ¬(k = k') := fun hh => hne hh.symm
      simp [dictGet, this]
    | cons kv rest ih =>
      rw [List.map_cons, List.mem_cons] at hmem
      push_neg at hmem
      simp only [List.cons_append, dictGet]
      by_cases hk2 : kv.1 = k'
      · rw [if_pos hk2, if_pos hk2]
      · rw [if_neg hk2, if_neg hk2]
        exact ih hmem.2

lemma keys_dictInsert_of_mem {β : Type} {k : String} (v : β)
    {l : List (String × β)} (hmem : k ∈ l.map Prod.fst) :
    (dictInsert l k v).map Prod.fst = l.map Prod.fst := by
  unfold dictInsert
  rw [if_pos hmem]
  exact keys_replace k v l

lemma length_dictInsert_of_mem {β : Type} {k : String} (v : β)
    {l : List (String × β)} (hmem : k ∈ l.map Prod.fst) :
    (dictInsert l k v).length = l.length := by
  unfold dictInsert
  rw [if_pos hmem]
  simp

lemma length_dictInsert_of_not_mem {β : Type} {k : String} (v : β)
    {l : List (String × β)} (hmem : k ∉ l.map Prod.fst) :
    (dictInsert l k v).length = l.length + 1 := by
  unfold dictInsert
  rw [if_neg hmem]
  simp

lemma nodup_keys_dictInsert {β : Type} (k : String) (v : β)
    {l : List (String × β)} (hnd : (l.map Prod.fst).Nodup) :
    ((dictInsert l k v).map Prod.fst).Nodup := by
  by_cases hmem : k ∈ l.map Prod.fst
  · rw [keys_dictInsert_of_mem v hmem]
    exact hnd
  · unfold dictInsert
    rw [if_neg hmem, List.map_append]
    rw [List.nodup_append]
    refine ⟨hnd, by simp, ?_⟩
    intro a ha hb
    simp only [List.map_cons, List.map_nil, List.mem_singleton] at hb
    exact hmem (hb ▸ ha)

lemma nodup_keys_eraseKey {β : Type} (k : String)
    {l : List (String × β)} (hnd : (l.map Prod.fst).Nodup) :
    ((eraseKey k l).map Prod.fst).Nodup :=
  ((List.filter_sublist l).map Prod.fst).nodup hnd

lemma length_eraseKey_le {β : Type} (k : String) (l : List (String × β)) :
    (eraseKey k l).length ≤ l.length :=
  List.length_filter_le _ l

/-! ## Helper lemmas: oldest-entry search -/

lemma findOldestFrom_cons (best : String × Int) (kv : String × CacheEntry)
    (rest : List (String × CacheEntry)) :
    findOldestFrom best (kv :: rest) =
      if kv.2.timestamp < best.2 then findOldestFrom (kv.1, kv.2.timestamp) rest
      else findOldestFrom best rest := rfl

lemma findOldestFrom_spec (l : List (String × CacheEntry)) :
    ∀ best : String × Int,
      (findOldestFrom best l = best ∨
        ∃ e : CacheEntry, ((findOldestFrom best l).1, e) ∈ l ∧
          e.timestamp = (findOldestFrom best l).2) ∧
      (findOldestFrom best l).2 ≤ best.2 ∧
      ∀ kv ∈ l, (findOldestFrom best l).2 ≤ kv.2.timestamp := by
  induction l with
  | nil => exact fun best => ⟨Or.inl rfl, le_refl _, by simp⟩
  | cons kv rest ih =>
    intro best
    rw [findOldestFrom_cons]
    by_cases hlt : kv.2.timestamp < best.2
    · rw [if_pos hlt]
      obtain ⟨hmem, hle, hall⟩ := ih (kv.1, kv.2.timestamp)
      refine ⟨?_, (lt_of_le_of_lt hle hlt).le, ?_⟩
      · rcases hmem with h | ⟨e, hmem2, hts⟩
        · exact Or.inr ⟨kv.2, by rw [h]; exact ⟨List.mem_cons_self _ _, rfl⟩⟩
        · exact Or.inr ⟨e, List.mem_cons_of_mem _ hmem2, hts⟩
      · intro kv' hkv'
        rcases List.mem_cons.mp hkv' with h | h
        · rw [h]
          exact hle
        · exact hall kv' h
    · rw [if_neg hlt]
      obtain ⟨hmem, hle, hall⟩ := ih best
      refine ⟨?_, hle, ?_⟩
      · rcases hmem with h | ⟨e, hmem2, hts⟩
        · exact Or.inl h
        · exact Or.inr ⟨e, List.mem_cons_of_mem _ hmem2, hts⟩
      · intro kv' hkv'
        rcases List.mem_cons.mp hkv' with h | h
        · rw [h]
          exact le_trans hle (not_lt.mp hlt)
        · exact hall kv' h

lemma find_oldest_entry_spec {l : List (String × CacheEntry)} (h : l ≠ []) :
    ∃ k e, CompletionCache.find_oldest_entry l = some k ∧ (k, e) ∈ l ∧
      ∀ kv ∈ l, e.timestamp ≤ kv.2.timestamp := by
  match l, h with
  | kv :: rest, _ =>
    obtain ⟨hmem, hle, hall⟩ := findOldestFrom_spec rest (kv.1, kv.2.timestamp)
    rcases hmem with hb | ⟨e, hmem2, hts⟩
    · refine ⟨(findOldestFrom (kv.1, kv.2.timestamp) rest).1, kv.2, rfl, ?_, ?_⟩
      · rw [hb]
        exact List.mem_cons_self _ _
      · intro kv' hkv'
        rcases List.mem_cons.mp hkv' with hh | hh
        · rw [hh]
        · have h2 := hall kv' hh
          have h3 : (findOldestFrom (kv.1, kv.2.timestamp) rest).2 =
              kv.2.timestamp := by rw [hb]
          rw [← h3]
          exact h2
    · refine ⟨(findOldestFrom (kv.1, kv.2.timestamp) rest).1, e, rfl,
        List.mem_cons_of_mem _ hmem2, ?_⟩
      intro kv' hkv'
      rcases List.mem_cons.mp hkv' with hh | hh
      · rw [hh, hts]
        exact hle
      · rw [hts]
        exact hall kv' hh

lemma find_oldest_entry_eq_none {l : List (String × CacheEntry)}
    (h : CompletionCache.find_oldest_entry l = none) : l = [] := by
  match l with
  | [] => rfl
  | kv :: rest => simp [CompletionCache.find_oldest_entry] at h

/-! ## Helper lemmas: cache operations -/

lemma evictIfFull_ttl (c : CompletionCache) :
    (CompletionCache.evictIfFull c).ttl_ms = c.ttl_ms := by
  unfold CompletionCache.evictIfFull
  split
  · split <;> rfl
  · rfl

lemma evictIfFull_max (c : CompletionCache) :
    (CompletionCache.evictIfFull c).max_size = c.max_size := by
  unfold CompletionCache.evictIfFull
  split
  · split <;> rfl
  · rfl

lemma evictIfFull_of_not_full {c : CompletionCache}
    (h : ¬((c.entries.length : Int) ≥ c.max_size)) :
    CompletionCache.evictIfFull c = c := by
  unfold CompletionCache.evictIfFull
  rw [if_neg h]

lemma evictIfFull_spec {c : CompletionCache}
    (hnd : (c.entries.map Prod.fst).Nodup)
    (hfull : (c.entries.length : Int) ≥ c.max_size)
    (hne : c.entries ≠ []) :
    ∃ k e, CompletionCache.find_oldest_entry c.entries = some k ∧
      (k, e) ∈ c.entries ∧
      (∀ kv ∈ c.entries, e.timestamp ≤ kv.2.timestamp) ∧
      (CompletionCache.evictIfFull c).entries = eraseKey k c.entries ∧
      (CompletionCache.evictIfFull c).entries.length + 1 = c.entries.length := by
  obtain ⟨k, e, hfind, hmem, hmin⟩ := find_oldest_entry_spec hne
  have hev : (CompletionCache.evictIfFull c).entries = eraseKey k c.entries := by
    unfold CompletionCache.evictIfFull
    rw [if_pos hfull, hfind]
  refine ⟨k, e, hfind, hmem, hmin, hev, ?_⟩
  rw [hev]
  exact length_eraseKey_of_mem hnd (List.mem_map.mpr ⟨(k, e), hmem, rfl⟩)

lemma cacheable_not_skipped {resp : CompletionResponse}
    (h1 : resp.completion ≠ "") (h2 : resp.error = none) :
    ¬(resp.completion = "" ∨ optStrTruthy resp.error = true) := by
  rw [h2]
  simp [optStrTruthy, h1]

lemma set_eq_of_cacheable (c : CompletionCache) (req : CompletionRequest)
    {resp : CompletionResponse} (now : Int)
    (h1 : resp.completion ≠ "") (h2 : resp.error = none) :
    CompletionCache.set c req resp now =
      { entries := dictInsert (CompletionCache.evictIfFull c).entries
          (CompletionCache.hash_key req) ⟨resp, now⟩,
        ttl_ms := c.ttl_ms, max_size := c.max_size } := by
  simp only [CompletionCache.set]
  rw [if_neg (cacheable_not_skipped h1 h2)]
  rw [show ∀ c1 : CompletionCache, ∀ X,
    ({ c1 with entries := X } : CompletionCache) =
      { entries := X, ttl_ms := c1.ttl_ms, max_size := c1.max_size } from
    fun _ _ => rfl]
  rw [evictIfFull_ttl, evictIfFull_max]

lemma get_snd_cases (c : CompletionCache) (req : CompletionRequest)
    (now : Int) :
    (CompletionCache.get c req now).2 = c ∨
      (CompletionCache.get c req now).2 =
        { c with entries :=
            eraseKey (CompletionCache.hash_key req) c.entries } := by
  unfold CompletionCache.get
  rcases hdg : dictGet (CompletionCache.hash_key req) c.entries with _ | e
  · left
    simp [hdg]
  · by_cases hexp : now - e.timestamp > c.ttl_ms
    · right
      simp [hdg, hexp]
    · left
      simp [hdg, hexp]

lemma set_preserves_inv (c : CompletionCache) (req : CompletionRequest)
    (resp : CompletionResponse) (now : Int)
    (hnd : (c.entries.map Prod.fst).Nodup)
    (hle : (c.entries.length : Int) ≤ c.max_size)
    (hpos : 1 ≤ c.max_size) :
    (((CompletionCache.set c req resp now).entries.map Prod.fst).Nodup ∧
      (((CompletionCache.set c req resp now).entries.length : Int) ≤
        c.max_size)) := by
  by_cases hskip : resp.completion = "" ∨ optStrTruthy resp.error = true
  · unfold CompletionCache.set
    rw [if_pos hskip]
    exact ⟨hnd, hle⟩
  · have hset : CompletionCache.set c req resp now =
        { entries := dictInsert (CompletionCache.evictIfFull c).entries
            (CompletionCache.hash_key req) ⟨resp, now⟩,
          ttl_ms := c.ttl_ms, max_size := c.max_size } := by
      simp only [CompletionCache.set]
      rw [if_neg hskip]
      rw [show ∀ c1 : CompletionCache, ∀ X,
        ({ c1 with entries := X } : CompletionCache) =
          { entries := X, ttl_ms := c1.ttl_ms, max_size := c1.max_size } from
        fun _ _ => rfl]
      rw [evictIfFull_ttl, evictIfFull_max]
    rw [hset]
    by_cases hfull : (c.entries.length : Int) ≥ c.max_size
    · have hne : c.entries ≠ [] := by
        have : (1 : Int) ≤ (c.entries.length : Int) := le_trans hpos hfull
        have : 1 ≤ c.entries.length := by exact_mod_cast this
        exact List.ne_nil_of_length_pos (by omega)
      obtain ⟨k, e, _, hmem, _, hev, hlen⟩ := evictIfFull_spec hnd hfull hne
      have hnd1 : (((CompletionCache.evictIfFull c).entries.map
          Prod.fst)).Nodup := by
        rw [hev]
        exact nodup_keys_eraseKey k hnd
      constructor
      · exact nodup_keys_dictInsert _ _ hnd1
      · by_cases hkm : CompletionCache.hash_key req ∈
            (CompletionCache.evictIfFull c).entries.map Prod.fst
        · rw [length_dictInsert_of_mem _ hkm]
          have : ((CompletionCache.evictIfFull c).entries.length : Int) + 1 =
              (c.entries.length : Int) := by exact_mod_cast hlen
          omega
        · rw [length_dictInsert_of_not_mem _ hkm]
          have : ((CompletionCache.evictIfFull c).entries.length : Int) + 1 =
              (c.entries.length : Int) := by exact_mod_cast hlen
          push_cast
          omega
    · rw [evictIfFull_of_not_full hfull]
      constructor
      · exact nodup_keys_dictInsert _ _ hnd
      · by_cases hkm : CompletionCache.hash_key req ∈ c.entries.map Prod.fst
        · rw [length_dictInsert_of_mem _ hkm]
          exact hle
        · rw [length_dictInsert_of_not_mem _ hkm]
          push_cast
          omega

lemma execOp_preserves_inv (c : CompletionCache) (op : CacheOp)
    (hnd : (c.entries.map Prod.fst).Nodup)
    (hle : (c.entries.length : Int) ≤ c.max_size)
    (hpos : 1 ≤ c.max_size) :
    ((CompletionCache.execOp c op).entries.map Prod.fst).Nodup ∧
      (((CompletionCache.execOp c op).entries.length : Int) ≤ c.max_size) ∧
      (CompletionCache.execOp c op).max_size = c.max_size := by
  cases op with
  | get req now =>
    have hexec : CompletionCache.execOp c (.get req now) =
        (CompletionCache.get c req now).2 := rfl
    rcases get_snd_cases c req now with h | h
    · rw [hexec, h]
      exact ⟨hnd, hle, rfl⟩
    · rw [hexec, h]
      refine ⟨nodup_keys_eraseKey _ hnd, ?_, rfl⟩
      have h2 : ((eraseKey (CompletionCache.hash_key req)
          c.entries).length : Int) ≤ (c.entries.length : Int) := by
        exact_mod_cast length_eraseKey_le (CompletionCache.hash_key req)
          c.entries
      show ((eraseKey (CompletionCache.hash_key req)
          c.entries).length : Int) ≤ c.max_size
      omega
  | set req resp now =>
    obtain ⟨h1, h2⟩ := set_preserves_inv c req resp now hnd hle hpos
    refine ⟨h1, h2, ?_⟩
    by_cases hskip : resp.completion = "" ∨ optStrTruthy resp.error = true
    · simp [CompletionCache.execOp, CompletionCache.set, hskip]
    · simp only [CompletionCache.execOp, CompletionCache.set]
      rw [if_neg hskip]
      exact evictIfFull_max c
  | clear => exact ⟨by simp [CompletionCache.execOp, CompletionCache.clear],
      by simp [CompletionCache.execOp, CompletionCache.clear]; omega,
      rfl⟩

lemma execOps_preserves_inv (ops : List CacheOp) :
    ∀ c : CompletionCache,
      (c.entries.map Prod.fst).Nodup →
      (c.entries.length : Int) ≤ c.max_size →
      1 ≤ c.max_size →
      ((CompletionCache.execOps c ops).entries.map Prod.fst).Nodup ∧
        ((CompletionCache.execOps c ops).entries.length : Int) ≤ c.max_size ∧
        (CompletionCache.execOps c ops).max_size = c.max_size := by
  induction ops with
  | nil => exact fun c hnd hle _ => ⟨hnd, hle, rfl⟩
  | cons op ops ih =>
    intro c hnd hle hpos
    obtain ⟨h1, h2, h3⟩ := execOp_preserves_inv c op hnd hle hpos
    have hstep : CompletionCache.execOps c (op :: ops) =
        CompletionCache.execOps (CompletionCache.execOp c op) ops := rfl
    rw [hstep]
    obtain ⟨g1, g2, g3⟩ := ih (CompletionCache.execOp c op) h1 (h3 ▸ h2)
      (h3 ▸ hpos)
    exact ⟨g1, by rw [← h3]; exact g2, by rw [← h3]; exact g3⟩

lemma dictGet_eq_of_mem_nodup {β : Type} {k : String} {v : β}
    {l : List (String × β)} (hnd : (l.map Prod.fst).Nodup)
    (hmem : (k, v) ∈ l) : dictGet k l = some v := by
  induction l with
  | nil => simp at hmem
  | cons kv rest ih =>
    rw [List.map_cons, List.nodup_cons] at hnd
    rcases List.mem_cons.mp hmem with hh | hh
    · rw [← hh]
      simp [dictGet]
    · have hne : ¬(kv.1 = k) := by
        intro he
        exact hnd.1 (he ▸ List.mem_map.mpr ⟨(k, v), hh, rfl⟩)
      simp only [dictGet, if_neg hne]
      exact ih hnd.2 hh

/-- C1: starting from an empty cache with capacity `max_size ≥ 1`, any
sequence of get/set/clear operations keeps the entry count at or below
`max_size`; and a `set` of a cacheable response on a cache at or above
capacity first deletes exactly one entry — the one found by
`_find_oldest_entry`, whose insertion timestamp is minimal among all
current entries — and then inserts.  (Amended from the claim: the bound can
be exceeded when `max_size ≤ 0`, see the counterexample.) -/
theorem cache_bounded_size_and_evicts_oldest
    (ttl msz : Int) (ops : List CacheOp) (c : CompletionCache)
    (req : CompletionRequest) (resp : CompletionResponse) (now : Int)
    (k : String) (e : CacheEntry) (kv : String × CacheEntry)
    (hmsz : 1 ≤ msz)
    (hnd : (c.entries.map Prod.fst).Nodup)
    (hfull : (c.entries.length : Int) ≥ c.max_size)
    (hcpos : 1 ≤ c.max_size)
    (hresp1 : resp.completion ≠ "")
    (hresp2 : resp.error = none)
    (hfind : CompletionCache.find_oldest_entry c.entries = some k)
    (hgete : dictGet k c.entries = some e)
    (hkv : kv ∈ c.entries) :
    ((CompletionCache.execOps (CompletionCache.mkEmpty ttl msz)
        ops).entries.length : Int) ≤ msz ∧
    (CompletionCache.evictIfFull c).entries = eraseKey k c.entries ∧
    (CompletionCache.evictIfFull c).entries.length + 1 = c.entries.length ∧
    e.timestamp ≤ kv.2.timestamp ∧
    CompletionCache.set c req resp now =
      { entries := dictInsert (eraseKey k c.entries)
          (CompletionCache.hash_key req) ⟨resp, now⟩,
        ttl_ms := c.ttl_ms, max_size := c.max_size } := by
  have hne : c.entries ≠ [] := by
    have h1 : (1 : Int) ≤ (c.entries.length : Int) := le_trans hcpos hfull
    have h2 : 1 ≤ c.entries.length := by exact_mod_cast h1
    exact List.ne_nil_of_length_pos (by omega)
  obtain ⟨k', e', hfind', hmem', hmin', hev', hlen'⟩ :=
    evictIfFull_spec hnd hfull hne
  have hkk : k' = k := by
    have := hfind'.symm.trans hfind
    exact Option.some.inj this
  have hee : e' = e := by
    have h1 := dictGet_eq_of_mem_nodup hnd hmem'
    rw [hkk] at h1
    exact Option.some.inj (h1.symm.trans hgete)
  subst hkk
  subst hee
  refine ⟨?_, hev', hlen', hmin' kv hkv, ?_⟩
  · have hinv := execOps_preserves_inv ops (CompletionCache.mkEmpty ttl msz)
      (by simp [CompletionCache.mkEmpty])
      (by simp [CompletionCache.mkEmpty]; omega)
      (by simpa [CompletionCache.mkEmpty] using hmsz)
    have := hinv.2.1
    simpa [CompletionCache.mkEmpty] using this
  · rw [set_eq_of_cacheable c req now hresp1 hresp2, hev']

/-- C1 counterexample: a cache configured with `max_size = 0` accepts a
cacheable response and ends with 1 stored entry, exceeding its capacity —
the eviction loop finds nothing to delete in an empty dict, and the insert
proceeds unconditionally. -/
theorem cache_capacity_zero_counterexample :
    ((CompletionCache.set (CompletionCache.mkEmpty 30000 0)
        { prefixStr := "a", language := "py" }
        { completion := "x" } 5).entries.length : Int) >
      (CompletionCache.mkEmpty 30000 0).max_size := by
  decide

/-- C1 witness: the amended theorem applied at capacity 1 with one stored
entry and one further set. -/
theorem cache_bounded_size_and_evicts_oldest_witness :
    ((CompletionCache.execOps (CompletionCache.mkEmpty 30000 1)
        [CacheOp.set { prefixStr := "a", language := "py" }
          { completion := "x" } 5]).entries.length : Int) ≤ 1 ∧
    (CompletionCache.evictIfFull
        { entries := [("k0", ⟨{ completion := "r0" }, 3⟩)],
          ttl_ms := 30000, max_size := 1 }).entries =
      eraseKey "k0" [("k0", ⟨{ completion := "r0" }, 3⟩)] ∧
    (CompletionCache.evictIfFull
        { entries := [("k0", ⟨{ completion := "r0" }, 3⟩)],
          ttl_ms := 30000, max_size := 1 }).entries.length + 1 =
      [("k0", (⟨{ completion := "r0" }, 3⟩ : CacheEntry))].length ∧
    (⟨{ completion := "r0" }, 3⟩ : CacheEntry).timestamp ≤
      (("k0", (⟨{ completion := "r0" }, 3⟩ : CacheEntry)) :
        String × CacheEntry).2.timestamp ∧
    CompletionCache.set
        { entries := [("k0", ⟨{ completion := "r0" }, 3⟩)],
          ttl_ms := 30000, max_size := 1 }
        { prefixStr := "a", language := "py" } { completion := "x" } 5 =
      { entries := dictInsert
          (eraseKey "k0" [("k0", ⟨{ completion := "r0" }, 3⟩)])
          (CompletionCache.hash_key { prefixStr := "a", language := "py" })
          ⟨{ completion := "x" }, 5⟩,
        ttl_ms := 30000, max_size := 1 } :=
  cache_bounded_size_and_evicts_oldest 30000 1
    [CacheOp.set { prefixStr := "a", language := "py" }
      { completion := "x" } 5]
    { entries := [("k0", ⟨{ completion := "r0" }, 3⟩)],
      ttl_ms := 30000, max_size := 1 }
    { prefixStr := "a", language := "py" } { completion := "x" } 5
    "k0" ⟨{ completion := "r0" }, 3⟩
    ("k0", ⟨{ completion := "r0" }, 3⟩)
    (by decide) (by decide) (by decide) (by decide) (by decide) (by decide)
    (by decide) (by decide) (by decide)

/-- C3: for a cacheable response (non-empty completion, no error), `set`
followed by `get` with the same request returns exactly the stored
response, whenever at most `ttl_ms` milliseconds have elapsed since the
insertion (no other operation, hence no eviction, happens in between). -/
theorem cache_set_get_roundtrip (c : CompletionCache)
    (req : CompletionRequest) (P : CompletionResponse) (t t' : Int)
    (hP1 : P.completion ≠ "") (hP2 : P.error = none)
    (h : t' - t ≤ c.ttl_ms) :
    ((CompletionCache.set c req P t).get req t').1 = some P := by
  rw [set_eq_of_cacheable c req t hP1 hP2]
  simp only [CompletionCache.get, dictGet_dictInsert_self]
  rw [if_neg (not_lt.mpr h)]

/-- C3 witness: the roundtrip at a concrete cache, request and time. -/
theorem cache_set_get_roundtrip_witness :
    ((CompletionCache.set (CompletionCache.mkEmpty 30000 100)
        { prefixStr := "const x = ", language := "typescript" }
        { completion := "42" } 0).get
      { prefixStr := "const x = ", language := "typescript" } 10).1 =
      some { completion := "42" } :=
  cache_set_get_roundtrip (CompletionCache.mkEmpty 30000 100)
    { prefixStr := "const x = ", language := "typescript" }
    { completion := "42" } 0 10 (by decide) (by decide) (by decide)

/-- C4: for a present entry, `get` misses and deletes it exactly when
`now - timestamp > ttl_ms`, and otherwise returns the stored response and
leaves the cache (in particular the entry and its timestamp) unchanged —
lazy, access-time-only expiration. -/
theorem cache_get_lazy_expiration (c : CompletionCache)
    (req : CompletionRequest) (now : Int) (e : CacheEntry)
    (h : dictGet (CompletionCache.hash_key req) c.entries = some e) :
    CompletionCache.get c req now =
      (if now - e.timestamp > c.ttl_ms then
        ((none : Option CompletionResponse),
          { c with entries :=
              eraseKey (CompletionCache.hash_key req) c.entries })
      else (some e.response, c)) := by
  simp only [CompletionCache.get, h]

/-- C4 witness: an entry inserted at time 0 with TTL 30000 is deleted and
reported missing by a `get` at time 40000. -/
theorem cache_get_lazy_expiration_witness :
    CompletionCache.get
        { entries := [("py:haiku:a:", ⟨{ completion := "x" }, 0⟩)],
          ttl_ms := 30000, max_size := 100 }
        { prefixStr := "a", language := "py" } 40000 =
      (if (40000 : Int) - (0 : Int) > (30000 : Int) then
        ((none : Option CompletionResponse),
          { entries := eraseKey "py:haiku:a:"
              [("py:haiku:a:",
                (⟨{ completion := "x" }, 0⟩ : CacheEntry))],
            ttl_ms := 30000, max_size := 100 })
      else (some { completion := "x" },
        { entries := [("py:haiku:a:", ⟨{ completion := "x" }, 0⟩)],
          ttl_ms := 30000, max_size := 100 })) := by
  have h := cache_get_lazy_expiration
    { entries := [("py:haiku:a:", ⟨{ completion := "x" }, 0⟩)],
      ttl_ms := 30000, max_size := 100 }
    { prefixStr := "a", language := "py" } 40000
    ⟨{ completion := "x" }, 0⟩ (by decide)
  exact h

/-- C10: when the cache is exactly at capacity and `set` rewrites a
fingerprint that is already present, the oldest entry (here a different
key) is still evicted first — eviction is decided before the incoming key
is computed — so the overwrite lands on the surviving binding and the cache
ends strictly below capacity. -/
theorem cache_overwrite_at_capacity_evicts_oldest (c : CompletionCache)
    (req : CompletionRequest) (resp : CompletionResponse) (now : Int)
    (k : String) (e : CacheEntry) (kv : String × CacheEntry)
    (hnd : (c.entries.map Prod.fst).Nodup)
    (hfull : (c.entries.length : Int) = c.max_size)
    (hpresent : CompletionCache.hash_key req ∈ c.entries.map Prod.fst)
    (hfind : CompletionCache.find_oldest_entry c.entries = some k)
    (hk : k ≠ CompletionCache.hash_key req)
    (hresp1 : resp.completion ≠ "")
    (hresp2 : resp.error = none)
    (hgete : dictGet k c.entries = some e)
    (hkv : kv ∈ c.entries) :
    ((CompletionCache.set c req resp now).entries.length : Int) =
      c.max_size - 1 ∧
    ((CompletionCache.set c req resp now).entries.length : Int) <
      c.max_size ∧
    dictGet k (CompletionCache.set c req resp now).entries = none ∧
    dictGet (CompletionCache.hash_key req)
      (CompletionCache.set c req resp now).entries = some ⟨resp, now⟩ ∧
    e.timestamp ≤ kv.2.timestamp := by
  have hne : c.entries ≠ [] := by
    rcases List.eq_nil_or_concat c.entries with hnil | _
    · rw [hnil] at hpresent
      simp at hpresent
    · intro hnil
      rw [hnil] at hpresent
      simp at hpresent
  obtain ⟨k', e', hfind', hmem', hmin', hev', hlen'⟩ :=
    evictIfFull_spec hnd (ge_of_eq hfull) hne
  have hkk : k' = k := Option.some.inj (hfind'.symm.trans hfind)
  subst hkk
  have hee : e' = e := by
    have h1 := dictGet_eq_of_mem_nodup hnd hmem'
    exact Option.some.inj (h1.symm.trans hgete)
  subst hee
  have hset := set_eq_of_cacheable c req now hresp1 hresp2
  rw [hev'] at hset
  have hpres1 : CompletionCache.hash_key req ∈
      (eraseKey k' c.entries).map Prod.fst :=
    mem_keys_eraseKey_of_ne (fun hh => hk hh.symm) hpresent
  have hlenins : (dictInsert (eraseKey k' c.entries)
      (CompletionCache.hash_key req)
      (⟨resp, now⟩ : CacheEntry)).length =
      (eraseKey k' c.entries).length :=
    length_dictInsert_of_mem _ hpres1
  have hlen2 : ((eraseKey k' c.entries).length : Int) + 1 =
      (c.entries.length : Int) := by
    rw [hev'] at hlen'
    exact_mod_cast hlen'
  refine ⟨?_, ?_, ?_, ?_, hmin' kv hkv⟩
  · rw [hset]
    show ((dictInsert (eraseKey k' c.entries)
      (CompletionCache.hash_key req) ⟨resp, now⟩).length : Int) =
      c.max_size - 1
    rw [hlenins]
    omega
  · rw [hset]
    show ((dictInsert (eraseKey k' c.entries)
      (CompletionCache.hash_key req) ⟨resp, now⟩).length : Int) < c.max_size
    rw [hlenins]
    omega
  · rw [hset]
    show dictGet k' (dictInsert (eraseKey k' c.entries)
      (CompletionCache.hash_key req) ⟨resp, now⟩) = none
    rw [dictGet_dictInsert_ne _ _ hk]
    exact dictGet_eraseKey_self k' c.entries
  · rw [hset]
    exact dictGet_dictInsert_self _ _ _

/-- C10 witness: a two-entry cache at capacity 2; rewriting the present
fingerprint evicts the unrelated older key "zzz" and leaves one entry. -/
theorem cache_overwrite_at_capacity_evicts_oldest_witness :
    ((CompletionCache.set
        { entries := [("zzz", ⟨{ completion := "r1" }, 0⟩),
            ("py:haiku:a:", ⟨{ completion := "r2" }, 5⟩)],
          ttl_ms := 30000, max_size := 2 }
        { prefixStr := "a", language := "py" }
        { completion := "x" } 9).entries.length : Int) = 2 - 1 ∧
    ((CompletionCache.set
        { entries := [("zzz", ⟨{ completion := "r1" }, 0⟩),
            ("py:haiku:a:", ⟨{ completion := "r2" }, 5⟩)],
          ttl_ms := 30000, max_size := 2 }
        { prefixStr := "a", language := "py" }
        { completion := "x" } 9).entries.length : Int) < 2 ∧
    dictGet "zzz" (CompletionCache.set
        { entries := [("zzz", ⟨{ completion := "r1" }, 0⟩),
            ("py:haiku:a:", ⟨{ completion := "r2" }, 5⟩)],
          ttl_ms := 30000, max_size := 2 }
        { prefixStr := "a", language := "py" }
        { completion := "x" } 9).entries = none ∧
    dictGet (CompletionCache.hash_key
        { prefixStr := "a", language := "py" })
      (CompletionCache.set
        { entries := [("zzz", ⟨{ completion := "r1" }, 0⟩),
            ("py:haiku:a:", ⟨{ completion := "r2" }, 5⟩)],
          ttl_ms := 30000, max_size := 2 }
        { prefixStr := "a", language := "py" }
        { completion := "x" } 9).entries =
      some ⟨{ completion := "x" }, 9⟩ ∧
    (⟨{ completion := "r1" }, 0⟩ : CacheEntry).timestamp ≤
      (("py:haiku:a:", (⟨{ completion := "r2" }, 5⟩ : CacheEntry)) :
        String × CacheEntry).2.timestamp := by
  have h := cache_overwrite_at_capacity_evicts_oldest
    { entries := [("zzz", ⟨{ completion := "r1" }, 0⟩),
        ("py:haiku:a:", ⟨{ completion := "r2" }, 5⟩)],
      ttl_ms := 30000, max_size := 2 }
    { prefixStr := "a", language := "py" } { completion := "x" } 9
    "zzz" ⟨{ completion := "r1" }, 0⟩
    ("py:haiku:a:", ⟨{ completion := "r2" }, 5⟩)
    (by decide) (by decide) (by decide) (by decide) (by decide) (by decide)
    (by decide) (by decide) (by decide)
  exact h

/-! ## Helper lemmas: rate limiter -/

lemma callsAt_replicate (W : Int) (n : Nat) (t0 : Int) (hW : 1 ≤ W) :
    ∀ k, k ≤ n →
      RateLimiter.callsAt
          { requests := [], window_ms := W, max_requests := (n : Int) }
          t0 k =
        { requests := List.replicate k t0, window_ms := W,
          max_requests := (n : Int) } := by
  intro k
  induction k with
  | zero => intro _; rfl
  | succ m ih =>
    intro hm
    have hstep : RateLimiter.callsAt
        { requests := [], window_ms := W, max_requests := (n : Int) }
        t0 (m + 1) =
        ((RateLimiter.callsAt
          { requests := [], window_ms := W, max_requests := (n : Int) }
          t0 m).is_allowed t0).2 := rfl
    rw [hstep, ih (by omega)]
    unfold RateLimiter.is_allowed
    have hfil : (List.replicate m t0).filter
        (fun t => decide (t0 - t < W)) = List.replicate m t0 := by
      rw [List.filter_replicate]
      rw [if_pos (by simp; omega)]
    simp only [hfil]
    rw [if_neg (by simp only [List.length_replicate]; omega)]
    rw [← List.replicate_succ']

lemma retry_after_replicate_succ (W : Int) (nn : Int) (m : Nat) (t0 now : Int) :
    RateLimiter.get_retry_after_seconds
        { requests := List.replicate (m + 1) t0, window_ms := W,
          max_requests := nn } now =
      max 0 (intCeilDiv (W - (now - t0)) 1000) := by
  rw [List.replicate_succ]
  rfl

/-- C2: with `window_ms = W ≥ 1` and `max_requests = N ≥ 1`, starting from
an empty window: each of the first N immediate `is_allowed` calls returns
true; the (N+1)th immediate call returns false and leaves the state
unchanged (no timestamp recorded); a call made at least W later returns
true; right after the denial `get_retry_after_seconds` is positive and at
most `ceil(W / 1000)`; and it is exactly 0 while no requests are recorded.
(Amended from the claim: with `W ≤ 0` or `N = 0` the stated behavior fails,
see the counterexample.) -/
theorem rate_limiter_window_behavior (n k : Nat) (W t0 t1 : Int)
    (rl0 : RateLimiter)
    (hrl : rl0 =
      { requests := [], window_ms := W, max_requests := (n : Int) })
    (hW : 1 ≤ W) (hn : 1 ≤ n) (hk : k < n) (ht1 : t1 - t0 ≥ W) :
    ((rl0.callsAt t0 k).is_allowed t0).1 = true ∧
    (rl0.callsAt t0 n).is_allowed t0 = (false, rl0.callsAt t0 n) ∧
    ((rl0.callsAt t0 n).is_allowed t1).1 = true ∧
    0 < (rl0.callsAt t0 n).get_retry_after_seconds t0 ∧
    (rl0.callsAt t0 n).get_retry_after_seconds t0 ≤ intCeilDiv W 1000 ∧
    rl0.get_retry_after_seconds t0 = 0 := by
  subst hrl
  have hstatek := callsAt_replicate W n t0 hW k hk.le
  have hstaten := callsAt_replicate W n t0 hW n le_rfl
  have hfil : ∀ m : Nat, (List.replicate m t0).filter
      (fun t => decide (t0 - t < W)) = List.replicate m t0 := by
    intro m
    rw [List.filter_replicate, if_pos (by simp; omega)]
  obtain ⟨m, rfl⟩ : ∃ m, n = m + 1 := ⟨n - 1, by omega⟩
  refine ⟨?_, ?_, ?_, ?_, ?_, rfl⟩
  · rw [hstatek]
    unfold RateLimiter.is_allowed
    simp only [hfil]
    rw [if_neg (by simp only [List.length_replicate]; omega)]
  · rw [hstaten]
    unfold RateLimiter.is_allowed
    simp only [hfil]
    rw [if_pos (by simp only [List.length_replicate]; omega)]
  · rw [hstaten]
    unfold RateLimiter.is_allowed
    have hfil2 : (List.replicate (m + 1) t0).filter
        (fun t => decide (t1 - t < W)) = [] := by
      rw [List.filter_replicate, if_neg (by simp; omega)]
    simp only [hfil2]
    rw [if_neg (by simp only [List.length_nil]; omega)]
  · rw [hstaten, retry_after_replicate_succ]
    unfold intCeilDiv
    omega
  · rw [hstaten, retry_after_replicate_succ]
    unfold intCeilDiv
    omega

/-- C2 counterexample: with `window_ms = 0` and `max_requests = 1` the
second immediate call is allowed again (the purge empties the window), so
the claimed universal (N+1)th-call denial fails at W = 0, N = 1. -/
theorem rate_limiter_zero_window_counterexample :
    ((RateLimiter.callsAt
        { requests := [], window_ms := 0, max_requests := 1 } 0 1).is_allowed
      0).1 = true := by
  decide

/-- C2 witness: the amended theorem applied at N = 2, W = 1000, calls at
time 0 and the late call at time 1000. -/
theorem rate_limiter_window_behavior_witness :
    ((RateLimiter.callsAt
        { requests := [], window_ms := 1000, max_requests := (2 : Nat) }
        0 0).is_allowed 0).1 = true ∧
    (RateLimiter.callsAt
        { requests := [], window_ms := 1000, max_requests := (2 : Nat) }
        0 2).is_allowed 0 =
      (false, RateLimiter.callsAt
        { requests := [], window_ms := 1000, max_requests := (2 : Nat) }
        0 2) ∧
    ((RateLimiter.callsAt
        { requests := [], window_ms := 1000, max_requests := (2 : Nat) }
        0 2).is_allowed 1000).1 = true ∧
    0 < (RateLimiter.callsAt
        { requests := [], window_ms := 1000, max_requests := (2 : Nat) }
        0 2).get_retry_after_seconds 0 ∧
    (RateLimiter.callsAt
        { requests := [], window_ms := 1000, max_requests := (2 : Nat) }
        0 2).get_retry_after_seconds 0 ≤ intCeilDiv 1000 1000 ∧
    RateLimiter.get_retry_after_seconds
      { requests := [], window_ms := 1000, max_requests := (2 : Nat) } 0 =
      0 :=
  rate_limiter_window_behavior 2 0 1000 0 1000
    { requests := [], window_ms := 1000, max_requests := (2 : Nat) }
    rfl (by decide) (by decide) (by decide) (by decide)

/-- C5: every backend failure in the taxonomy — timeout, CLI not installed,
connection failure, process failure (exit code falling back to "unknown"),
decode failure, generic SDK failure, or the catch-all (message defaulting
to "Unknown error" when empty) — is handled totally by both pipelines:
metrics are recorded with `isError = true` (the error count increments) and
the envelope carries empty text and a non-null message.  Totality over the
`BackendFailure` type is the no-unhandled-propagation property. -/
theorem backend_failures_all_handled (m : MetricsState) (model : String)
    (elapsed : ℚ) (f : BackendFailure) (rid : Option String) :
    (handleCompletionFailure m model elapsed f rid).1.completion = "" ∧
    (handleCompletionFailure m model elapsed f rid).1.error.isSome = true ∧
    (handleCompletionFailure m model elapsed f rid).2.error_count =
      m.error_count + 1 ∧
    (handleModificationFailure m model elapsed f rid).1.modified_code = "" ∧
    (handleModificationFailure m model elapsed f rid).1.error.isSome =
      true ∧
    (handleModificationFailure m model elapsed f rid).2.error_count =
      m.error_count + 1 ∧
    backendFailureMessage (.processFailure none) =
      "Claude Code CLI process failed (exit code: unknown)" ∧
    backendFailureMessage (.other "") = "Unknown error" := by
  refine ⟨rfl, rfl, ?_, rfl, rfl, ?_, by decide, by decide⟩ <;>
    simp [handleCompletionFailure, handleModificationFailure,
      MetricsState.record_request]

/-- C7: whenever the sanitizer rejects the backend text (any filter
reason), the completion pipeline returns an envelope with empty completion
and a null error, leaves the cache untouched, and records metrics with
`isError = false` and `cacheHit = false` (error and hit counters unchanged,
total incremented) — a successful empty result, not an error. -/
theorem filter_rejection_is_success (cache : CompletionCache)
    (m : MetricsState) (req : CompletionRequest) (text : String)
    (rid : Option String) (elapsed : ℚ) (now : Int) (r : String)
    (h : (clean_completion text (if req.multiline then 1000 else 200)).2 =
      some r) :
    (completionSuccessPath cache m req text rid elapsed now).1 =
      { completion := "", error := none, requestId := rid } ∧
    (completionSuccessPath cache m req text rid elapsed now).2.1 = cache ∧
    (completionSuccessPath cache m req text rid elapsed now).2.2.error_count
      = m.error_count ∧
    (completionSuccessPath cache m req text rid elapsed now).2.2.cache_hits
      = m.cache_hits ∧
    (completionSuccessPath cache m req text rid elapsed now).2.2.total_requests
      = m.total_requests + 1 := by
  have he : clean_completion text (if req.multiline then 1000 else 200) =
      ((clean_completion text (if req.multiline then 1000 else 200)).1,
        some r) := by
    rw [← h]
  simp only [completionSuccessPath]
  rw [he]
  exact ⟨rfl, rfl, by simp [MetricsState.record_request],
    by simp [MetricsState.record_request],
    by simp [MetricsState.record_request]⟩

/-- C7 witness: the conversational response "I need more context" is
rejected by the sanitizer and yields the empty, error-free outcome. -/
theorem filter_rejection_is_success_witness :
    (completionSuccessPath (CompletionCache.mkEmpty 30000 100) {}
        { prefixStr := "a", language := "py" } "I need more context"
        (some "rid-1") 7 0).1 =
      { completion := "", error := none, requestId := some "rid-1" } ∧
    (completionSuccessPath (CompletionCache.mkEmpty 30000 100) {}
        { prefixStr := "a", language := "py" } "I need more context"
        (some "rid-1") 7 0).2.1 = CompletionCache.mkEmpty 30000 100 ∧
    (completionSuccessPath (CompletionCache.mkEmpty 30000 100) {}
        { prefixStr := "a", language := "py" } "I need more context"
        (some "rid-1") 7 0).2.2.error_count =
      ({} : MetricsState).error_count ∧
    (completionSuccessPath (CompletionCache.mkEmpty 30000 100) {}
        { prefixStr := "a", language := "py" } "I need more context"
        (some "rid-1") 7 0).2.2.cache_hits =
      ({} : MetricsState).cache_hits ∧
    (completionSuccessPath (CompletionCache.mkEmpty 30000 100) {}
        { prefixStr := "a", language := "py" } "I need more context"
        (some "rid-1") 7 0).2.2.total_requests =
      ({} : MetricsState).total_requests + 1 :=
  filter_rejection_is_success (CompletionCache.mkEmpty 30000 100) {}
    { prefixStr := "a", language := "py" } "I need more context"
    (some "rid-1") 7 0
    ("Filtered conversational response: " ++ pat1src) (by decide)

/-- C8: for every model (in particular the realizable "haiku", "sonnet"
and "opus"), the resolved backend timeout follows the precedence: a
non-zero per-request override (milliseconds), else the environment
override (milliseconds), else the per-model default (haiku 5 s, sonnet
10 s, opus 30 s), else the 5 s fallback for a name outside the table; and
`get_claude_completion` makes exactly one backend attempt per request with
no retries: its result is determined by the first attempt alone, and a
failing attempt is surfaced unchanged rather than retried.  (Amended from
the claim: a per-request override of 0 is falsy in Python and falls
through to the next level, see the counterexample.) -/
theorem timeout_resolution_precedence (v e : Int) (model other : String)
    (f : BackendFailure) (backend backend2 : Nat → BackendOutcome)
    (hv : v ≠ 0)
    (hm1 : other ≠ "haiku") (hm2 : other ≠ "sonnet") (hm3 : other ≠ "opus")
    (hb : backend 0 = backend2 0) :
    resolvedTimeout (some v) (some e) model = (v : ℚ) / 1000 ∧
    resolvedTimeout (some v) none model = (v : ℚ) / 1000 ∧
    resolvedTimeout none (some e) model = (e : ℚ) / 1000 ∧
    resolvedTimeout (some 0) (some e) model = (e : ℚ) / 1000 ∧
    resolvedTimeout none none "haiku" = 5 ∧
    resolvedTimeout none none "sonnet" = 10 ∧
    resolvedTimeout none none "opus" = 30 ∧
    resolvedTimeout none none other = 5 ∧
    (get_claude_completion backend).2 = 1 ∧
    get_claude_completion backend = get_claude_completion backend2 ∧
    (get_claude_completion (constBackendFail f)).1 = Except.error f := by
  refine ⟨?_, ?_, rfl, rfl, rfl, rfl, rfl, ?_, rfl, ?_, rfl⟩
  · simp [resolvedTimeout, hv]
  · simp [resolvedTimeout, hv]
  · simp [resolvedTimeout, get_timeout, MODEL_TIMEOUTS, DEFAULT_TIMEOUT,
      hm1, hm2, hm3]
  · unfold get_claude_completion
    rw [hb]

/-- C8 counterexample: a per-request override of 0 ms is not honored — the
haiku default of 5 s is used instead of 0 s. -/
theorem timeout_zero_override_counterexample :
    resolvedTimeout (some 0) none "haiku" = 5 ∧
    resolvedTimeout (some 0) none "haiku" ≠ ((0 : Int) : ℚ) / 1000 := by
  constructor
  · norm_num [resolvedTimeout, get_timeout, MODEL_TIMEOUTS, DEFAULT_TIMEOUT]
  · norm_num [resolvedTimeout, get_timeout, MODEL_TIMEOUTS, DEFAULT_TIMEOUT]

/-- C8 witness: the precedence theorem at override 7000 ms, environment
2000 ms, the realizable model "haiku" (and the unknown name "gpt" for the
table fallback), with a backend that succeeds on its first attempt and
would fail on any retry. -/
theorem timeout_resolution_precedence_witness :
    resolvedTimeout (some 7000) (some 2000) "haiku" =
      ((7000 : Int) : ℚ) / 1000 ∧
    resolvedTimeout (some 7000) none "haiku" = ((7000 : Int) : ℚ) / 1000 ∧
    resolvedTimeout none (some 2000) "haiku" = ((2000 : Int) : ℚ) / 1000 ∧
    resolvedTimeout (some 0) (some 2000) "haiku" =
      ((2000 : Int) : ℚ) / 1000 ∧
    resolvedTimeout none none "haiku" = 5 ∧
    resolvedTimeout none none "sonnet" = 10 ∧
    resolvedTimeout none none "opus" = 30 ∧
    resolvedTimeout none none "gpt" = 5 ∧
    (get_claude_completion (constBackendOk "42")).2 = 1 ∧
    get_claude_completion (constBackendOk "42") =
      get_claude_completion
        (backendOkThenFail "42" BackendFailure.timedOut) ∧
    (get_claude_completion (constBackendFail BackendFailure.timedOut)).1 =
      Except.error BackendFailure.timedOut :=
  timeout_resolution_precedence 7000 2000 "haiku" "gpt"
    BackendFailure.timedOut (constBackendOk "42")
    (backendOkThenFail "42" BackendFailure.timedOut)
    (by decide) (by decide) (by decide) (by decide) rfl

/-! ## Helper lemmas: metrics -/

lemma record_request_fields (m : MetricsState) (model : String) (t : ℚ)
    (hit err : Bool) :
    (m.record_request model t hit err).total_requests =
      m.total_requests + 1 ∧
    (m.record_request model t hit err).cache_hits =
      m.cache_hits + (if hit then 1 else 0) ∧
    (m.record_request model t hit err).error_count =
      m.error_count + (if err then 1 else 0) :=
  ⟨rfl, rfl, rfl⟩

lemma record_request_response_times (m : MetricsState) (model : String)
    (t : ℚ) (hit err : Bool)
    (hlen : m.response_times.length ≤ MAX_RESPONSE_TIMES) :
    (m.record_request model t hit err).response_times =
      (m.response_times ++ [t]).drop
        ((m.response_times.length + 1) - MAX_RESPONSE_TIMES) ∧
    (m.record_request model t hit err).response_times.length ≤
      MAX_RESPONSE_TIMES := by
  have hrt : (m.record_request model t hit err).response_times =
      (if (m.response_times ++ [t]).length > MAX_RESPONSE_TIMES then
        (m.response_times ++ [t]).tail else m.response_times ++ [t]) := rfl
  rw [hrt]
  by_cases h : (m.response_times ++ [t]).length > MAX_RESPONSE_TIMES
  · rw [if_pos h]
    rw [List.length_append, List.length_cons, List.length_nil] at h
    have hd : (m.response_times.length + 1) - MAX_RESPONSE_TIMES = 1 := by
      omega
    rw [hd, List.drop_one]
    constructor
    · rfl
    · rw [List.length_tail, List.length_append]
      simp
      omega
  · rw [if_neg h]
    rw [List.length_append, List.length_cons, List.length_nil] at h
    have hd : (m.response_times.length + 1) - MAX_RESPONSE_TIMES = 0 := by
      omega
    rw [hd, List.drop_zero]
    refine ⟨rfl, ?_⟩
    rw [List.length_append]
    simp
    omega

set_option maxRecDepth 4000 in
lemma recordAll_spec (rs : List RecordInput) :
    ∀ m : MetricsState, m.response_times.length ≤ MAX_RESPONSE_TIMES →
      (m.recordAll rs).total_requests = m.total_requests + rs.length ∧
      (m.recordAll rs).cache_hits =
        m.cache_hits + (rs.filter (fun r => r.cache_hit)).length ∧
      (m.recordAll rs).error_count =
        m.error_count + (rs.filter (fun r => r.error)).length ∧
      (m.recordAll rs).response_times =
        (m.response_times ++ rs.map (fun r => r.response_time_ms)).drop
          ((m.response_times.length + rs.length) - MAX_RESPONSE_TIMES) ∧
      (m.recordAll rs).response_times.length ≤ MAX_RESPONSE_TIMES := by
  induction rs with
  | nil =>
    intro m hlen
    refine ⟨by simp [MetricsState.recordAll], by simp [MetricsState.recordAll],
      by simp [MetricsState.recordAll], ?_, ?_⟩
    · simp only [MetricsState.recordAll, List.foldl_nil, List.length_nil,
        List.map_nil, List.append_nil, Nat.add_zero]
      have hd : m.response_times.length - MAX_RESPONSE_TIMES = 0 := by omega
      rw [hd, List.drop_zero]
    · simpa [MetricsState.recordAll] using hlen
  | cons r rs ih =>
    intro m hlen
    have hstep : m.recordAll (r :: rs) =
        (m.record_request r.model r.response_time_ms r.cache_hit
          r.error).recordAll rs := rfl
    obtain ⟨hrt, hrtlen⟩ := record_request_response_times m r.model
      r.response_time_ms r.cache_hit r.error hlen
    obtain ⟨ht, hc, he, hr, hl⟩ := ih
      (m.record_request r.model r.response_time_ms r.cache_hit r.error)
      hrtlen
    obtain ⟨f1, f2, f3⟩ := record_request_fields m r.model
      r.response_time_ms r.cache_hit r.error
    rw [hstep]
    refine ⟨?_, ?_, ?_, ?_, hl⟩
    · rw [ht, f1, List.length_cons]
      omega
    · rw [hc, f2, List.filter_cons]
      by_cases hh : r.cache_hit
      · simp only [hh, if_true, List.length_cons]
        omega
      · simp [hh]
    · rw [he, f3, List.filter_cons]
      by_cases hh : r.error
      · simp only [hh, if_true, List.length_cons]
        omega
      · simp [hh]
    · rw [hr, hrt]
      have hdle : (m.response_times.length + 1) - MAX_RESPONSE_TIMES ≤
          (m.response_times ++ [r.response_time_ms]).length := by
        rw [List.length_append]
        simp only [List.length_cons, List.length_nil]
        omega
      have hlen2 : ((m.response_times ++ [r.response_time_ms]).drop
          ((m.response_times.length + 1) - MAX_RESPONSE_TIMES)).length =
          (m.response_times.length + 1) -
            ((m.response_times.length + 1) - MAX_RESPONSE_TIMES) := by
        rw [List.length_drop, List.length_append]
        simp
      rw [hlen2]
      rw [← List.drop_append_of_le_length hdle]
      rw [List.drop_drop]
      have harr : (m.response_times ++ [r.response_time_ms]) ++
          rs.map (fun r => r.response_time_ms) =
          m.response_times ++ (r :: rs).map (fun r => r.response_time_ms) := by
        rw [List.map_cons, ← List.append_cons]
      rw [harr]
      have hidx : ∀ A B : Nat, A = B →
          List.drop A (m.response_times ++
            (r :: rs).map (fun r => r.response_time_ms)) =
          List.drop B (m.response_times ++
            (r :: rs).map (fun r => r.response_time_ms)) := by
        intro A B hh
        rw [hh]
      apply hidx
      rw [List.length_cons]
      omega

/-- C9: after any sequence of `record_request` calls from a fresh metrics
object, the rolling buffer holds exactly the most recent
`min(n, MAX_RESPONSE_TIMES)` samples (older ones dropped FIFO, never more
than 1000 kept); `avgResponseTimeMs` is the Python-rounded arithmetic mean
of that buffer (0 when empty); and `cacheHitRate` is
`round((cacheHits / totalRequests) * 100) / 100` (0 when no requests). -/
theorem metrics_rolling_average_and_hit_rate (rs : List RecordInput) :
    (MetricsState.recordAll {} rs).response_times.length ≤
      MAX_RESPONSE_TIMES ∧
    (MetricsState.recordAll {} rs).response_times =
      (rs.map (fun r => r.response_time_ms)).drop
        (rs.length - MAX_RESPONSE_TIMES) ∧
    ((MetricsState.recordAll {} rs).get_metrics).avgResponseTimeMs =
      (if (rs.map (fun r => r.response_time_ms)).drop
          (rs.length - MAX_RESPONSE_TIMES) = [] then 0
       else pyRound
        ((((rs.map (fun r => r.response_time_ms)).drop
            (rs.length - MAX_RESPONSE_TIMES)).sum) /
          ((((rs.map (fun r => r.response_time_ms)).drop
            (rs.length - MAX_RESPONSE_TIMES)).length : ℚ)))) ∧
    ((MetricsState.recordAll {} rs).get_metrics).cacheHitRate =
      (if rs.length = 0 then 0
       else (pyRound ((((rs.filter (fun r => r.cache_hit)).length : ℚ) /
          (rs.length : ℚ)) * 100) : ℚ) / 100) := by
  obtain ⟨ht, hc, _, hr, hl⟩ := recordAll_spec rs {} (by simp)
  have hr' : (MetricsState.recordAll {} rs).response_times =
      (rs.map (fun r => r.response_time_ms)).drop
        (rs.length - MAX_RESPONSE_TIMES) := by
    simpa using hr
  have ht' : (MetricsState.recordAll {} rs).total_requests = rs.length := by
    simpa using ht
  have hc' : (MetricsState.recordAll {} rs).cache_hits =
      (rs.filter (fun r => r.cache_hit)).length := by
    simpa using hc
  have havg : ∀ M : MetricsState, (M.get_metrics).avgResponseTimeMs =
      if M.response_times = [] then 0
      else pyRound (M.response_times.sum /
        (M.response_times.length : ℚ)) := fun M => rfl
  have hrate : ∀ M : MetricsState, (M.get_metrics).cacheHitRate =
      if M.total_requests > 0 then
        (pyRound (((M.cache_hits : ℚ) / (M.total_requests : ℚ)) * 100) :
          ℚ) / 100
      else 0 := fun M => rfl
  refine ⟨hl, hr', ?_, ?_⟩
  · rw [havg, hr']
  · rw [hrate, ht', hc']
    by_cases h0 : rs.length = 0
    · simp [h0]
    · rw [if_pos (Nat.pos_of_ne_zero h0), if_neg h0]

/-! ## Helper lemmas: output sanitizer -/

lemma clean_completion_eval_accept (text : String) (L : Nat)
    (cl : List Char)
    (h1 : stripChars (stripFenceEnd (stripFenceStart text.data)) = cl)
    (h2 : firstFilterReason CONVERSATIONAL_PATTERNS cl = none)
    (h3 : ¬(cl.length > L)) :
    clean_completion text L = (String.mk cl, none) := by
  simp only [clean_completion]
  rw [h1, h2]
  exact if_neg h3

lemma clean_completion_eval_reject_pattern (text : String) (L : Nat)
    (cl : List Char) (src : String)
    (h1 : stripChars (stripFenceEnd (stripFenceStart text.data)) = cl)
    (h2 : firstFilterReason CONVERSATIONAL_PATTERNS cl = some src) :
    clean_completion text L =
      ("", some ("Filtered conversational response: " ++ src)) := by
  simp only [clean_completion]
  rw [h1, h2]

lemma clean_completion_eval_reject_length (text : String) (L : Nat)
    (cl : List Char)
    (h1 : stripChars (stripFenceEnd (stripFenceStart text.data)) = cl)
    (h2 : firstFilterReason CONVERSATIONAL_PATTERNS cl = none)
    (h3 : cl.length > L) :
    clean_completion text L =
      ("", some ("Filtered response (too long): " ++ toString cl.length ++
        " > " ++ toString L)) := by
  simp only [clean_completion]
  rw [h1, h2]
  exact if_pos h3

lemma dropWhile_replicate_not (p : Char → Bool) (c : Char) (n : Nat)
    (h : p c = false) :
    (List.replicate n c).dropWhile p = List.replicate n c := by
  cases n with
  | zero => rfl
  | succ m => simp [List.replicate_succ, List.dropWhile_cons, h]

lemma stripChars_replicate_x (n : Nat) :
    stripChars (List.replicate n 'x') = List.replicate n 'x' := by
  unfold stripChars
  rw [dropWhile_replicate_not _ _ _ (by decide), List.reverse_replicate,
    dropWhile_replicate_not _ _ _ (by decide), List.reverse_replicate]

lemma stripFenceStart_replicate_x (n : Nat) :
    stripFenceStart (List.replicate n 'x') = List.replicate n 'x' := by
  match n with
  | 0 => rfl
  | 1 => rfl
  | 2 => rfl
  | (m + 3) =>
    rw [List.replicate_succ, List.replicate_succ, List.replicate_succ]
    rfl

lemma stripFenceEnd_replicate_x (n : Nat) :
    stripFenceEnd (List.replicate n 'x') = List.replicate n 'x' := by
  cases n with
  | zero => rfl
  | succ m =>
    unfold stripFenceEnd
    rw [List.reverse_replicate, List.replicate_succ]
    rfl

lemma listStartsWith_cons_ne (c d : Char) (nd hs : List Char)
    (h : ¬(c = d)) : listStartsWith (c :: nd) (d :: hs) = false := by
  simp [listStartsWith, h]

lemma listStartsWith_replicate_x (c : Char) (nd : List Char) (n : Nat)
    (h : ¬(c = 'x')) :
    listStartsWith (c :: nd) (List.replicate n 'x') = false := by
  cases n with
  | zero => rfl
  | succ m =>
    rw [List.replicate_succ]
    exact listStartsWith_cons_ne c 'x' nd _ h

lemma listContainsSub_replicate_x (c : Char) (nd : List Char) (n : Nat)
    (h : ¬(c = 'x')) :
    listContainsSub (c :: nd) (List.replicate n 'x') = false := by
  induction n with
  | zero => rfl
  | succ m ih =>
    rw [List.replicate_succ]
    show (listStartsWith (c :: nd) ('x' :: List.replicate m 'x') ||
      listContainsSub (c :: nd) (List.replicate m 'x')) = false
    rw [listStartsWith_cons_ne c 'x' nd _ h, ih]
    rfl

lemma toLowerList_replicate_x (n : Nat) :
    toLowerList (List.replicate n 'x') = List.replicate n 'x' := by
  unfold toLowerList
  rw [List.map_replicate]
  rfl

lemma lsw_str_replicate_x (s : String) (c : Char) (nd : List Char) (n : Nat)
    (hs : s.data = c :: nd) (h : ¬(c = 'x')) :
    listStartsWith s.data (List.replicate n 'x') = false := by
  rw [hs]
  exact listStartsWith_replicate_x c nd n h

lemma lcs_str_replicate_x (s : String) (c : Char) (nd : List Char) (n : Nat)
    (hs : s.data = c :: nd) (h : ¬(c = 'x')) :
    listContainsSub s.data (List.replicate n 'x') = false := by
  rw [hs]
  exact listContainsSub_replicate_x c nd n h

lemma firstFilterReason_replicate_x (n : Nat) :
    firstFilterReason CONVERSATIONAL_PATTERNS (List.replicate n 'x') =
      none := by
  have h1 : pat1match (List.replicate n 'x') = false := by
    unfold pat1match
    rw [toLowerList_replicate_x]
    simp only [lsw_str_replicate_x "i need" 'i' _ n rfl (by decide),
      lsw_str_replicate_x "i cannot" 'i' _ n rfl (by decide),
      lsw_str_replicate_x ("i can" ++ squote ++ "t") 'i' _ n rfl (by decide),
      lsw_str_replicate_x ("i don" ++ squote ++ "t") 'i' _ n rfl (by decide),
      lsw_str_replicate_x "i would" 'i' _ n rfl (by decide),
      lsw_str_replicate_x "i could" 'i' _ n rfl (by decide),
      Bool.or_self, Bool.or_false, Bool.false_or]
  have h2 : pat2match (List.replicate n 'x') = false := by
    unfold pat2match
    rw [toLowerList_replicate_x]
    simp only [lsw_str_replicate_x "could you" 'c' _ n rfl (by decide),
      lsw_str_replicate_x "would you" 'w' _ n rfl (by decide),
      lsw_str_replicate_x "can you" 'c' _ n rfl (by decide),
      Bool.or_self, Bool.or_false, Bool.false_or]
  have h3 : listContainsSub "more context".data
      (toLowerList (List.replicate n 'x')) = false := by
    rw [toLowerList_replicate_x]
    exact lcs_str_replicate_x "more context" 'm' _ n rfl (by decide)
  have h4 : listContainsSub "cannot provide".data
      (toLowerList (List.replicate n 'x')) = false := by
    rw [toLowerList_replicate_x]
    exact lcs_str_replicate_x "cannot provide" 'c' _ n rfl (by decide)
  have h5 : listContainsSub "please provide".data
      (toLowerList (List.replicate n 'x')) = false := by
    rw [toLowerList_replicate_x]
    exact lcs_str_replicate_x "please provide" 'p' _ n rfl (by decide)
  have h6 : listContainsSub "let me".data
      (toLowerList (List.replicate n 'x')) = false := by
    rw [toLowerList_replicate_x]
    exact lcs_str_replicate_x "let me" 'l' _ n rfl (by decide)
  have h7 : listContainsSub "however".data
      (toLowerList (List.replicate n 'x')) = false := by
    rw [toLowerList_replicate_x]
    exact lcs_str_replicate_x "however" 'h' _ n rfl (by decide)
  have h8 : pat8match (List.replicate n 'x') = false := by
    unfold pat8match
    rw [toLowerList_replicate_x]
    simp only [lcs_str_replicate_x "without additional" 'w' _ n rfl (by decide),
      lcs_str_replicate_x "without more" 'w' _ n rfl (by decide),
      Bool.or_self, Bool.or_false, Bool.false_or]
  simp only [CONVERSATIONAL_PATTERNS, firstFilterReason, h1, h2, h3, h4, h5,
    h6, h7, h8, Bool.false_eq_true, if_false]

/-- C6: `clean_completion` strips the python fence from
`"```python\nprint(1)\n```"` and accepts it with no rejection reason (for
any `max_length ≥ 8`); rejects "I need more context" for every
`max_length`, with the reason naming the first matching pattern (pattern 1,
even though pattern 3 "more context" also matches — fixed order,
short-circuit, and patterns are checked before the length filter); accepts
a pattern-free text of exactly `max_length` characters; and rejects one of
`max_length + 1` characters with the length-exceeded reason. -/
theorem clean_completion_cases (L : Nat) (hL : 8 ≤ L) :
    clean_completion "```python\nprint(1)\n```" L = ("print(1)", none) ∧
    clean_completion "I need more context" L =
      ("", some ("Filtered conversational response: " ++ pat1src)) ∧
    clean_completion (String.mk (List.replicate L 'x')) L =
      (String.mk (List.replicate L 'x'), none) ∧
    clean_completion (String.mk (List.replicate (L + 1) 'x')) L =
      ("", some ("Filtered response (too long): " ++ toString (L + 1) ++
        " > " ++ toString L)) := by
  refine ⟨?_, ?_, ?_, ?_⟩
  · have h := clean_completion_eval_accept "```python\nprint(1)\n```" L
      ("print(1)".data) (by decide) (by decide)
      (by
        have hlen : ("print(1)".data).length = 8 := by decide
        omega)
    exact h
  · exact clean_completion_eval_reject_pattern "I need more context" L
      ("I need more context".data) pat1src (by decide) (by decide)
  · have h := clean_completion_eval_accept
      (String.mk (List.replicate L 'x')) L (List.replicate L 'x')
      (by
        rw [show (String.mk (List.replicate L 'x')).data =
          List.replicate L 'x' from rfl]
        rw [stripFenceStart_replicate_x, stripFenceEnd_replicate_x,
          stripChars_replicate_x])
      (firstFilterReason_replicate_x L)
      (by
        rw [List.length_replicate]
        omega)
    exact h
  · have h := clean_completion_eval_reject_length
      (String.mk (List.replicate (L + 1) 'x')) L (List.replicate (L + 1) 'x')
      (by
        rw [show (String.mk (List.replicate (L + 1) 'x')).data =
          List.replicate (L + 1) 'x' from rfl]
        rw [stripFenceStart_replicate_x, stripFenceEnd_replicate_x,
          stripChars_replicate_x])
      (firstFilterReason_replicate_x (L + 1))
      (by
        rw [List.length_replicate]
        omega)
    rw [List.length_replicate] at h
    exact h

/-- C6 witness: the four sanitizer cases at `max_length = 200`. -/
theorem clean_completion_cases_witness :
    clean_completion "```python\nprint(1)\n```" 200 = ("print(1)", none) ∧
    clean_completion "I need more context" 200 =
      ("", some ("Filtered conversational response: " ++ pat1src)) ∧
    clean_completion (String.mk (List.replicate 200 'x')) 200 =
      (String.mk (List.replicate 200 'x'), none) ∧
    clean_completion (String.mk (List.replicate (200 + 1) 'x')) 200 =
      ("", some ("Filtered response (too long): " ++ toString (200 + 1) ++
        " > " ++ toString 200)) :=
  clean_completion_cases 200 (by omega)
